import Mathlib

/-!
Shallow embedding of the axiv hotel-booking enrichment pipeline
(src/data/entities.rs, src/data/readers.rs, src/data/mod.rs,
src/data/integrator.rs) together with theorems settling the frozen
claims about its specification.

Modelling conventions:
* Rust `String` is Lean `String`; `u8` quantities are `Nat` (values 0..255,
  the range the CSV deserializer accepts for `u8` fields).
* `f64` prices are modelled by `Rat` for finite values; the single place the
  program can produce a non-finite `f64` (division by a zero pax) is modelled
  by `Option Rat`, `none` standing for the IEEE non-finite result (Inf/NaN).
  All prices exercised by the claims are exactly representable, so rational
  arithmetic agrees with the `f64` arithmetic of the source there.
* `chrono::NaiveDate` is a `y/m/d` record with the proleptic Gregorian
  validity rules; `+ Duration::days(1)` is the calendar successor.
* `HashMap` is an association list with replace-on-insert semantics, which
  reproduces the observable find/insert/extend behaviour of the source.
-/

namespace Axiv

/-! ### Dates (model of chrono::NaiveDate as used by the program) -/

/-- Model of chrono::NaiveDate: a year/month/day record.  Validity
(proleptic Gregorian calendar) is a separate predicate, as chrono
guarantees it on construction. -/
structure Date where
  y : Nat
  m : Nat
  d : Nat
deriving DecidableEq, Repr

/-- Gregorian leap-year rule, as implemented by chrono. -/
def is_leap (y : Nat) : Bool :=
  y % 4 == 0 && (y % 100 != 0 || y % 400 == 0)

/-- Number of days of month m in year y (months counted 1..12). -/
def days_in_month (y m : Nat) : Nat :=
  if m = 2 then (if is_leap y then 29 else 28)
  else if m = 4 ∨ m = 6 ∨ m = 9 ∨ m = 11 then 30
  else 31

/-- Validity of a date in the proleptic Gregorian calendar. -/
def date_valid (dt : Date) : Bool :=
  1 ≤ dt.m && dt.m ≤ 12 && 1 ≤ dt.d && dt.d ≤ days_in_month dt.y dt.m

/-- Model of `checkin + Duration::days(1)` from the integrator: the calendar
successor of a date. -/
def next_day (dt : Date) : Date :=
  if dt.d < days_in_month dt.y dt.m then ⟨dt.y, dt.m, dt.d + 1⟩
  else if dt.m < 12 then ⟨dt.y, dt.m + 1, 1⟩
  else ⟨dt.y + 1, 1, 1⟩

/-! ### Decimal digit strings -/

/-- Character for a single decimal digit. -/
def digit_char (n : Nat) : Char := Char.ofNat (48 + n)

/-- Numeric value of a decimal digit character. -/
def digit_val (c : Char) : Nat := c.toNat - 48

/-- Whether a character is an ASCII decimal digit. -/
def is_digit_char (c : Char) : Bool := 48 ≤ c.toNat && c.toNat ≤ 57

/-- Fuel-driven conversion of a natural number to its decimal digits
(most significant first); the fuel argument makes the recursion structural. -/
def nat_digits_aux : Nat → Nat → List Char → List Char
  | 0, _, acc => acc
  | fuel + 1, n, acc =>
    if n < 10 then digit_char n :: acc
    else nat_digits_aux fuel (n / 10) (digit_char (n % 10) :: acc)

/-- Decimal digits of a natural number, most significant first. -/
def nat_digits (n : Nat) : List Char := nat_digits_aux (n + 1) n []

/-- Numeric value of a list of decimal digit characters. -/
def digits_to_nat (cs : List Char) : Nat :=
  cs.foldl (fun n c => n * 10 + digit_val c) 0

/-- Left-pad a digit list with zeros to width w. -/
def pad (w : Nat) (cs : List Char) : List Char :=
  List.replicate (w - cs.length) '0' ++ cs

/-- Four-digit zero-padded decimal rendering (chrono's %Y for years 0..9999). -/
def pad4 (n : Nat) : List Char := pad 4 (nat_digits n)

/-- Two-digit zero-padded decimal rendering (chrono's %m / %d). -/
def pad2 (n : Nat) : List Char := pad 2 (nat_digits n)

/-! ### The program's two date formats (custom_date in src/data/mod.rs) -/

/-- Model of custom_date::serialize: renders a date with chrono format
"%Y-%m-%d" (hyphenated ISO, year zero-padded to 4 digits for years
up to 9999, the range the claims exercise). -/
def date_serialize (dt : Date) : String :=
  String.mk (pad4 dt.y ++ '-' :: (pad2 dt.m ++ '-' :: pad2 dt.d))

/-- Model of custom_date::deserialize: NaiveDate::parse_from_str with chrono
format "%Y%m%d".  For this fixed-width all-numeric format chrono accepts
exactly eight digits, binding them 4-2-2 and then validating the date;
anything else (wrong length, a non-digit such as a hyphen) is rejected. -/
def date_deserialize (s : String) : Option Date :=
  let cs := s.toList
  if cs.length == 8 && cs.all is_digit_char then
    let dt : Date :=
      ⟨digits_to_nat (cs.take 4),
       digits_to_nat ((cs.drop 4).take 2),
       digits_to_nat (cs.drop 6)⟩
    if date_valid dt then some dt else none
  else none

/-! ### Price serialization (serialize_float in src/data/mod.rs) -/

/-- Render a number of cents as a decimal string with two digits after the
point. -/
def format_cents (cents : Nat) : String :=
  String.mk (nat_digits (cents / 100)) ++ "." ++ String.mk (pad2 (cents % 100))

/-- Model of serialize_float: Rust's format "{:.2}" on an f64.  A finite
value is rendered with exactly two digits after the decimal point, rounding
to the nearest hundredth (the claims only exercise exactly representable
values, where no rounding happens); the non-finite values that division by
zero produces are rendered as "inf" (Rust prints inf, -inf or NaN, never a
two-decimal numeral). -/
def serialize_float : Option Rat → String
  | none => "inf"
  | some q =>
    if q < 0 then "-" ++ format_cents (round (-q * 100)).toNat
    else format_cents (round (q * 100)).toNat

/-! ### Entities (src/data/entities.rs) -/

/-- It generates key for use in the room store based on the properties of the
room that are available in the input data (generate_room_key in
entities.rs): the literal hyphen-joined concatenation of hotel code, room
code and source, in that order. -/
def generate_room_key (hotel_code room_code source_ : String) : String :=
  hotel_code ++ "-" ++ room_code ++ "-" ++ source_

/-- Room entity.  Field order matters: it is the struct declaration order of
the Rust source (hotel_code, source, room_name, room_code), which is the
order the headerless CSV deserializer binds columns in. -/
structure Room where
  hotel_code : String
  source : String
  room_name : String
  room_code : String
deriving DecidableEq, Repr

/-- Room::key from entities.rs. -/
def Room.key (r : Room) : String :=
  generate_room_key r.hotel_code r.room_code r.source

/-- Hotel entity, fields in struct declaration order.  The f32 category is
modelled as a rational (it is only carried through, never computed with). -/
structure Hotel where
  id : String
  city_code : String
  name : String
  category : Rat
  country_code : String
  city : String
deriving DecidableEq, Repr

/-- Input row (one booking fragment), fields in struct declaration order.
adults and children are u8 (0..255); checkin is parsed with the compact
date format; price is a finite f64, modelled as a rational. -/
structure Input where
  city_code : String
  hotel_code : String
  room_type : String
  room_code : String
  meal : String
  checkin : Date
  adults : Nat
  children : Nat
  price : Rat
  source : String
deriving DecidableEq, Repr

/-- Output row, fields in struct declaration order.  price is the f64
produced by the per-person division; none models the non-finite result of
dividing by a zero pax. -/
structure Output where
  room_type_meal : String
  room_code : String
  source : String
  hotel_name : String
  city_name : String
  city_code : String
  hotel_category : Rat
  pax : Nat
  adults : Nat
  children : Nat
  room_name : String
  checkin : Date
  checkout : Date
  price : Option Rat
deriving DecidableEq, Repr

/-! ### JSON values and serde-derived Hotel deserialization -/

/-- JSON value, as produced by serde_json from one line of the hotels file. -/
inductive Json where
  | str (s : String)
  | num (q : Rat)
  | boolean (b : Bool)
  | null
  | arr (elems : List Json)
  | obj (fields : List (String × Json))

/-- Accumulator for the serde-derived Hotel visitor: one optional slot per
declared field. -/
structure HotelAcc where
  id : Option String
  city_code : Option String
  name : Option String
  category : Option Rat
  country_code : Option String
  city : Option String

/-- Empty accumulator: no field seen yet. -/
def hotel_acc_init : HotelAcc := ⟨none, none, none, none, none, none⟩

/-- Fill a string-typed field slot: a repeated field or a non-string value is
an error (serde's duplicate-field / invalid-type errors). -/
def set_str (slot : Option String) (v : Json) : Except String (Option String) :=
  match slot, v with
  | some _, _ => .error "duplicate field"
  | none, .str s => .ok (some s)
  | none, _ => .error "invalid type"

/-- Fill the numeric category slot, with the same duplicate/type rules. -/
def set_num (slot : Option Rat) (v : Json) : Except String (Option Rat) :=
  match slot, v with
  | some _, _ => .error "duplicate field"
  | none, .num q => .ok (some q)
  | none, _ => .error "invalid type"

/-- Process one key/value pair of the JSON object the way the derived
Deserialize impl does: known fields fill their slot, unknown fields are
ignored (the Hotel struct carries no deny_unknown_fields attribute, so
serde's default of skipping unknown keys applies). -/
def hotel_step (acc : HotelAcc) (field : String × Json) : Except String HotelAcc :=
  if field.1 = "id" then (set_str acc.id field.2).map (fun v => { acc with id := v })
  else if field.1 = "city_code" then (set_str acc.city_code field.2).map (fun v => { acc with city_code := v })
  else if field.1 = "name" then (set_str acc.name field.2).map (fun v => { acc with name := v })
  else if field.1 = "category" then (set_num acc.category field.2).map (fun v => { acc with category := v })
  else if field.1 = "country_code" then (set_str acc.country_code field.2).map (fun v => { acc with country_code := v })
  else if field.1 = "city" then (set_str acc.city field.2).map (fun v => { acc with city := v })
  else .ok acc

/-- Left-to-right traversal of the object's fields, stopping at the first
error. -/
def hotel_fold : HotelAcc → List (String × Json) → Except String HotelAcc
  | acc, [] => .ok acc
  | acc, f :: rest =>
    match hotel_step acc f with
    | .error e => .error e
    | .ok acc2 => hotel_fold acc2 rest

/-- Model of serde_json::from_str::<Hotel> applied to an already-lexed JSON
value: the input must be an object, every declared field must be present
with the right type, and unknown fields are ignored. -/
def hotel_from_json : Json → Except String Hotel
  | .obj fields =>
    match hotel_fold hotel_acc_init fields with
    | .error e => .error e
    | .ok ⟨some id, some city_code, some name, some category, some country_code, some city⟩ =>
      .ok ⟨id, city_code, name, category, country_code, city⟩
    | .ok _ => .error "missing field"
  | _ => .error "invalid type"

/-! ### Readers (src/data/readers.rs) -/

/-- Model of Iterator::collect over Result items: the collected list of all
values, or the first error. -/
def collect_results {α : Type} : List (Except String α) → Except String (List α)
  | [] => .ok []
  | .error e :: _ => .error e
  | .ok a :: rest =>
    match collect_results rest with
    | .error e => .error e
    | .ok as_ => .ok (a :: as_)

/-- Context message the hotels reader attaches to a failing line (its
to_string view, which the tests of the source compare against). -/
def hotels_ctx (raw : String) : String :=
  "Encountered unparsable entity during parsing hotels data at line: " ++ raw

/-- Processing of one line of the hotels file: raw is the line's text and j
its serde_json lexing (none when the line is not valid JSON at all); a
parse failure of either stage is reported with the context naming the raw
line, a success is keyed by the hotel's id. -/
def hotels_line (raw : String) (j : Option Json) : Except String (String × Hotel) :=
  match j with
  | none => .error (hotels_ctx raw)
  | some v =>
    match hotel_from_json v with
    | .error _ => .error (hotels_ctx raw)
    | .ok h => .ok (h.id, h)

/-- Model of hotels_reader: the file is a list of lines (raw text plus its
JSON lexing); every line must parse, and the result is collected like the
source's collect over Results. -/
def hotels_reader (lines : List (String × Option Json)) : Except String (List (String × Hotel)) :=
  collect_results (lines.map (fun p => hotels_line p.1 p.2))

/-- Model of the csv crate deserializing one headerless record into a Room:
with headers disabled, columns bind positionally in struct declaration
order (hotel_code, source, room_name, room_code); a record of any other
arity is a deserialization error. -/
def room_from_record : List String → Except String Room
  | [hotel_code, source_, room_name, room_code] => .ok ⟨hotel_code, source_, room_name, room_code⟩
  | _ => .error "wrong number of fields"

/-- Processing of one record of the rooms file: a failing record is reported
with the source's generic context (no per-row detail), a success is keyed by
Room::key. -/
def rooms_line (rec : List String) : Except String (String × Room) :=
  match room_from_record rec with
  | .error _ => .error "Encountered unparsable entity during parsing rooms data."
  | .ok room => .ok (room.key, room)

/-- Model of rooms_reader: the file is a list of pipe-split records; every
record must parse, collected like the source's collect over Results. -/
def rooms_reader (records : List (List String)) : Except String (List (String × Room)) :=
  collect_results (records.map rooms_line)

/-! ### Reference store (DataSource in src/data/mod.rs) -/

/-- Lookup in an association list by key: the observable behaviour of
HashMap::get. -/
def store_find {K I : Type} [DecidableEq K] : List (K × I) → K → Option I
  | [], _ => none
  | p :: rest, k => if p.1 = k then some p.2 else store_find rest k

/-- Insertion into an association list, replacing the entry with the same
key when present: the observable behaviour of HashMap::insert. -/
def store_insert {K I : Type} [DecidableEq K] : List (K × I) → K → I → List (K × I)
  | [], k, v => [(k, v)]
  | p :: rest, k, v => if p.1 = k then (k, v) :: rest else p :: store_insert rest k v

/-- HashMap::extend: insert every pair in order, later pairs overwriting
earlier ones with the same key. -/
def store_extend {K I : Type} [DecidableEq K] (l : List (K × I)) (items : List (K × I)) : List (K × I) :=
  items.foldl (fun acc p => store_insert acc p.1 p.2) l

/-- In-memory data source keeping its items in a (modelled) HashMap. -/
structure DataSource (K I : Type) where
  items : List (K × I)

/-- DataSource::find from mod.rs. -/
def DataSource.find {K I : Type} [DecidableEq K] (s : DataSource K I) (key : K) : Option I :=
  store_find s.items key

/-- DataSource::import_from from mod.rs, with the reader call replaced by
its result: on a reader error the method returns early with the error and
the items are untouched; on success the pairs are inserted via extend and no
error is reported. -/
def DataSource.import_from {K I : Type} [DecidableEq K] (s : DataSource K I)
    (r : Except String (List (K × I))) : DataSource K I × Option String :=
  match r with
  | .error e => (s, some e)
  | .ok items => (⟨store_extend s.items items⟩, none)

/-! ### Row integrator (src/data/integrator.rs) -/

/-- Model of f64 division by the pax count: a zero divisor yields the IEEE
non-finite result (Inf, or NaN when the dividend is zero too), modelled as
none; otherwise the exact quotient. -/
def f64_div (p : Rat) (pax : Nat) : Option Rat :=
  if pax = 0 then none else some (p / (pax : Rat))

/-- Abbreviated stand-in for the Debug formatting of an Input used in the
integrator's error messages; the claims do not depend on its exact shape. -/
def input_repr (item : Input) : String :=
  item.city_code ++ " " ++ item.hotel_code ++ " " ++ item.room_type ++ " " ++
    item.room_code ++ " " ++ item.meal ++ " " ++ item.source

/-- Body of DataIntegrator::next for one successfully deserialized input
row.  The room key is computed with generate_room_key; a missing room or
hotel yields the corresponding error; otherwise pax is the u8 sum
adults + children — u8 addition wraps modulo 256 in the release build the
program ships (a debug build aborts instead; under neither semantics is an
error item produced) — the price is divided by pax as f64, and the output
record is assembled field by field as in the source. -/
def integrate_row (rooms : DataSource String Room) (hotels : DataSource String Hotel)
    (item : Input) : Except String Output :=
  let room_key := generate_room_key item.hotel_code item.room_code item.source
  match rooms.find room_key with
  | none => .error ("Input links to a non existent room: " ++ input_repr item)
  | some room =>
    match hotels.find item.hotel_code with
    | none => .error ("Input links to a non existent hotel: " ++ input_repr item)
    | some hotel =>
      let pax := (item.adults + item.children) % 256
      let price := f64_div item.price pax
      .ok
        { room_type_meal := item.room_type ++ " " ++ item.meal
          room_code := room.room_code
          source := item.source
          hotel_name := hotel.name
          city_name := hotel.city
          city_code := item.city_code
          hotel_category := hotel.category
          pax := pax
          adults := item.adults
          children := item.children
          room_name := room.room_name
          checkin := item.checkin
          checkout := next_day item.checkin
          price := price }

/-! ### Spec-side companion definitions and concrete fixtures -/

/-- Modelled from the spec: parse of the output date format "%Y-%m-%d"
(hyphenated ISO, zero-padded 4-digit year).  The program itself only
serializes this format; the parse direction exists to state the per-format
round trip of the spec's date-encoding section. -/
def spec_hyphen_parse (s : String) : Option Date :=
  match s.toList with
  | [y1, y2, y3, y4, h1, m1, m2, h2, d1, d2] =>
    if ([y1, y2, y3, y4, m1, m2, d1, d2].all is_digit_char) && h1 == '-' && h2 == '-' then
      let dt : Date := ⟨digits_to_nat [y1, y2, y3, y4], digits_to_nat [m1, m2], digits_to_nat [d1, d2]⟩
      if date_valid dt then some dt else none
    else none
  | _ => none

/-- Modelled from the spec: rendering of the input date format "%Y%m%d"
(compact, zero-padded 4-digit year).  The program itself only parses this
format; the render direction exists to state the per-format round trip of
the spec's date-encoding section. -/
def spec_compact_render (dt : Date) : String :=
  String.mk (pad4 dt.y ++ (pad2 dt.m ++ pad2 dt.d))

/-- Value bound to a key by the last pair of the list carrying that key:
the entry a sequential overwrite import leaves in the store. -/
def last_assoc {K I : Type} [DecidableEq K] : List (K × I) → K → Option I
  | [], _ => none
  | p :: rest, k =>
    (last_assoc rest k).orElse (fun _ => if p.1 = k then some p.2 else none)

/-- A string that ends in a decimal point followed by exactly two digits
worth of characters. -/
def two_decimals (s : String) : Prop :=
  ∃ a b : String, s = a ++ "." ++ b ∧ b.length = 2

/-- JSON object carrying exactly the six declared Hotel fields, well typed. -/
def hotel_json_exact (h : Hotel) : Json :=
  .obj [("id", .str h.id), ("city_code", .str h.city_code), ("name", .str h.name),
        ("category", .num h.category), ("country_code", .str h.country_code), ("city", .str h.city)]

/-- JSON object with all six Hotel fields plus one extra unknown field. -/
def hotel_with_extra_field : Json :=
  .obj [("id", .str "BER00002"), ("city_code", .str "BER"),
        ("name", .str "Crowne Plaza Berlin City Centre"), ("category", .num 4),
        ("country_code", .str "DE"), ("city", .str "Berlin"), ("stars", .str "four")]

/-- JSON object missing the name and category fields (the shape of the
malformed line in the source's own reader test). -/
def hotel_missing_fields_json : Json :=
  .obj [("id", .str "BER00003"), ("city_code", .str "BER"),
        ("country_code", .str "DE"), ("city", .str "Berlin")]

/-- Fixture room, as in the source's reader test data. -/
def room0 : Room := ⟨"BER00003", "MARR", "Single Standard", "BER849"⟩

/-- Fixture hotel, as in the source's reader test data. -/
def hotel0 : Hotel := ⟨"BER00003", "BER", "Berlin Marriott Hotel", 5, "DE", "Berlin"⟩

/-- Room store holding room0 under its own key. -/
def rooms0 : DataSource String Room := ⟨[(room0.key, room0)]⟩

/-- Hotel store holding hotel0 under its id. -/
def hotels0 : DataSource String Hotel := ⟨[(hotel0.id, hotel0)]⟩

/-- Input row of the spec's end-to-end example: checkin 20190730, two
adults, one child, price 90.00, matching room0 and hotel0. -/
def input0 : Input :=
  ⟨"BER", "BER00003", "Double", "BER849", "BB", ⟨2019, 7, 30⟩, 2, 1, 90, "MARR"⟩

/-- Output the integrator produces for input0. -/
def out0 : Output :=
  ⟨"Double BB", "BER849", "MARR", "Berlin Marriott Hotel", "Berlin", "BER", 5,
   3, 2, 1, "Single Standard", ⟨2019, 7, 30⟩, ⟨2019, 7, 31⟩, f64_div 90 3⟩

/-- Input row with zero adults and zero children (pax = 0). -/
def input1 : Input :=
  ⟨"BER", "BER00003", "Double", "BER849", "BB", ⟨2019, 7, 30⟩, 0, 0, 90, "MARR"⟩

/-- Output the integrator produces for input1: a division by a zero pax. -/
def out1 : Output :=
  ⟨"Double BB", "BER849", "MARR", "Berlin Marriott Hotel", "Berlin", "BER", 5,
   0, 0, 0, "Single Standard", ⟨2019, 7, 30⟩, ⟨2019, 7, 31⟩, f64_div 90 0⟩

/-- Input row whose adults + children = 300 exceeds the u8 range. -/
def input2 : Input :=
  ⟨"BER", "BER00003", "Double", "BER849", "BB", ⟨2019, 7, 30⟩, 200, 100, 90, "MARR"⟩

/-- Output the integrator produces for input2: the pax sum wrapped to 44. -/
def out2 : Output :=
  ⟨"Double BB", "BER849", "MARR", "Berlin Marriott Hotel", "Berlin", "BER", 5,
   44, 200, 100, "Single Standard", ⟨2019, 7, 30⟩, ⟨2019, 7, 31⟩, f64_div 90 44⟩

/-! ### Helper lemmas -/

theorem store_find_isSome {K I : Type} [DecidableEq K] (l : List (K × I)) (k : K) :
    (store_find l k).isSome ↔ ∃ p ∈ l, p.1 = k := by
  induction l with
  | nil => simp [store_find]
  | cons p rest ih =>
    by_cases h : p.1 = k
    · simp [store_find, h]
    · simp [store_find, h, ih]

theorem store_find_insert {K I : Type} [DecidableEq K] (l : List (K × I)) (k k' : K) (v : I) :
    store_find (store_insert l k v) k' = if k = k' then some v else store_find l k' := by
  induction l with
  | nil => by_cases hk : k = k' <;> simp [store_insert, store_find, hk]
  | cons p rest ih =>
    by_cases hp : p.1 = k
    · simp only [store_insert, if_pos hp, store_find]
      by_cases hk : k = k'
      · simp [hk]
      · have hpk' : ¬ p.1 = k' := fun h => hk (hp.symm.trans h)
        simp [hk, hpk']
    · simp only [store_insert, if_neg hp, store_find]
      by_cases hpk : p.1 = k'
      · have hk : ¬ k = k' := fun h => hp (hpk.trans h.symm)
        simp [hpk, hk]
      · simp [hpk, ih]

theorem store_find_extend {K I : Type} [DecidableEq K] (l items : List (K × I)) (k : K) :
    store_find (store_extend l items) k
      = (last_assoc items k).orElse (fun _ => store_find l k) := by
  induction items generalizing l with
  | nil => simp [store_extend, last_assoc, Option.orElse]
  | cons p rest ih =>
    have hfold : store_extend l (p :: rest) = store_extend (store_insert l p.1 p.2) rest := rfl
    rw [hfold, ih, store_find_insert, last_assoc]
    cases last_assoc rest k with
    | some v => simp [Option.orElse]
    | none =>
      by_cases hp : p.1 = k <;> simp [Option.orElse, hp]

theorem last_assoc_isSome {K I : Type} [DecidableEq K] (l : List (K × I)) (k : K) :
    (last_assoc l k).isSome ↔ ∃ p ∈ l, p.1 = k := by
  induction l with
  | nil => simp [last_assoc]
  | cons p rest ih =>
    rw [last_assoc]
    cases hrest : last_assoc rest k with
    | some v =>
      have hex : ∃ q ∈ rest, q.1 = k := ih.1 (by rw [hrest]; rfl)
      rcases hex with ⟨q, hq, hqk⟩
      exact ⟨fun _ => ⟨q, List.mem_cons_of_mem _ hq, hqk⟩, fun _ => rfl⟩
    | none =>
      have hnone : ¬ ∃ q ∈ rest, q.1 = k := by rw [← ih, hrest]; simp
      by_cases hp : p.1 = k
      · exact ⟨fun _ => ⟨p, List.mem_cons_self _ _, hp⟩,
               fun _ => by simp [Option.orElse, hp]⟩
      · constructor
        · intro hs
          simp [Option.orElse, hp] at hs
        · intro hex
          rcases hex with ⟨q, hq, hqk⟩
          rcases List.mem_cons.1 hq with h1 | h2
          · exact absurd (h1 ▸ hqk) hp
          · exact absurd ⟨q, h2, hqk⟩ hnone

theorem collect_results_error_of_mem {α β : Type} (f : α → Except String β) (l : List α)
    (hx : ∃ x ∈ l, ∃ e, f x = .error e) :
    ∃ e, collect_results (l.map f) = .error e := by
  induction l with
  | nil => simp at hx
  | cons hd tl ih =>
    cases hfx : f hd with
    | error e => exact ⟨e, by simp [collect_results, hfx]⟩
    | ok a =>
      have htl : ∃ x ∈ tl, ∃ e, f x = .error e := by
        rcases hx with ⟨x, hmem, e, hfe⟩
        rcases List.mem_cons.1 hmem with hxh | hxt
        · rw [hxh, hfx] at hfe; cases hfe
        · exact ⟨x, hxt, e, hfe⟩
      rcases ih htl with ⟨e, he⟩
      exact ⟨e, by simp [collect_results, hfx, he]⟩

theorem integrate_row_ok_inv (rooms : DataSource String Room)
    (hotels : DataSource String Hotel) (item : Input) (out : Output)
    (h : integrate_row rooms hotels item = .ok out) :
    ∃ room hotel,
      rooms.find (generate_room_key item.hotel_code item.room_code item.source) = some room
      ∧ hotels.find item.hotel_code = some hotel
      ∧ out = { room_type_meal := item.room_type ++ " " ++ item.meal
                room_code := room.room_code
                source := item.source
                hotel_name := hotel.name
                city_name := hotel.city
                city_code := item.city_code
                hotel_category := hotel.category
                pax := (item.adults + item.children) % 256
                adults := item.adults
                children := item.children
                room_name := room.room_name
                checkin := item.checkin
                checkout := next_day item.checkin
                price := f64_div item.price ((item.adults + item.children) % 256) } := by
  simp only [integrate_row] at h
  cases hr : rooms.find (generate_room_key item.hotel_code item.room_code item.source) with
  | none => rw [hr] at h; cases h
  | some room =>
    rw [hr] at h
    cases hh : hotels.find item.hotel_code with
    | none => rw [hh] at h; cases h
    | some hotel =>
      rw [hh] at h
      injection h with h'
      exact ⟨room, hotel, rfl, rfl, h'.symm⟩

theorem pad2_length : ∀ n < 100, (pad2 n).length = 2 := by decide

theorem serialize_float_cents (q : Rat) (c : Nat) (h : q * 100 = (c : Rat)) (h0 : 0 ≤ q) :
    serialize_float (some q) = format_cents c := by
  have hneg : ¬ q < 0 := not_lt.2 h0
  simp [serialize_float, hneg, h, round_natCast]

theorem serialize_float_nonneg_two_decimals (q : Rat) (h0 : 0 ≤ q) :
    two_decimals (serialize_float (some q)) := by
  have hneg : ¬ q < 0 := not_lt.2 h0
  refine ⟨String.mk (nat_digits ((round (q * 100)).toNat / 100)),
          String.mk (pad2 ((round (q * 100)).toNat % 100)), ?_, ?_⟩
  · simp [serialize_float, hneg, format_cents]
  · rw [String.length_mk]
    exact pad2_length _ (Nat.mod_lt _ (by norm_num))

theorem not_two_decimals_inf : ¬ two_decimals "inf" := by
  rintro ⟨a, b, hab, hb⟩
  have hdot : '.' ∈ "inf".data := by
    rw [hab, String.data_append, String.data_append]
    exact List.mem_append.2 (Or.inl (List.mem_append.2 (Or.inr (by simp))))
  simp at hdot

theorem store_find_extend_nil_isSome {K I : Type} [DecidableEq K] (l : List (K × I)) (k : K) :
    (store_find (store_extend [] l) k).isSome ↔ ∃ p ∈ l, p.1 = k := by
  rw [store_find_extend]
  cases hl : last_assoc l k with
  | some v =>
    have hex := (last_assoc_isSome l k).1 (by rw [hl]; rfl)
    exact ⟨fun _ => hex, fun _ => rfl⟩
  | none =>
    constructor
    · intro hs
      simp [Option.orElse, store_find] at hs
    · intro hex
      exact absurd ((last_assoc_isSome l k).2 hex) (by rw [hl]; simp)

/-! ### Claim theorems -/

/-- C1: the derived room key is the hyphen-joined concatenation of
hotel_code, room_code and source in that exact order; Room::key derives the
same key from the room's own fields as the integrator derives from an input
row's fields; and a lookup in the room store succeeds exactly when some
stored entry's key — for a store imported from rooms, the room's own
composite key — equals the input row's composite key. -/
theorem room_key_derivation :
    (∀ hotel_code room_code source_ : String,
       generate_room_key hotel_code room_code source_
         = hotel_code ++ "-" ++ room_code ++ "-" ++ source_)
    ∧ (∀ r : Room, Room.key r = generate_room_key r.hotel_code r.room_code r.source)
    ∧ (∀ (rooms : DataSource String Room) (item : Input),
         (rooms.find (generate_room_key item.hotel_code item.room_code item.source)).isSome
           ↔ ∃ p ∈ rooms.items, p.1 = generate_room_key item.hotel_code item.room_code item.source)
    ∧ (∀ (rs : List Room) (item : Input),
         (store_find (store_extend [] (rs.map (fun r => (r.key, r))))
             (generate_room_key item.hotel_code item.room_code item.source)).isSome
           ↔ ∃ r ∈ rs, r.key = generate_room_key item.hotel_code item.room_code item.source) := by
  refine ⟨fun _ _ _ => rfl, fun _ => rfl, fun rooms item => store_find_isSome _ _, fun rs item => ?_⟩
  rw [store_find_extend_nil_isSome]
  simp [List.mem_map]

/-- C2 counterexample: the claim predicts the second pipe column binds to
room_code and the third to source; the reader actually binds columns in
struct declaration order, so for the record A|B|C|D the parsed room has
source = "B" and room_code = "D", not room_code = "B". -/
theorem rooms_column_order_counterexample :
    room_from_record ["A", "B", "C", "D"]
      = .ok { hotel_code := "A", source := "B", room_name := "C", room_code := "D" }
    ∧ ¬ ∃ r : Room, room_from_record ["A", "B", "C", "D"] = .ok r
          ∧ r.room_code = "B" ∧ r.source = "C" ∧ r.room_name = "D" := by
  refine ⟨rfl, ?_⟩
  rintro ⟨r, hr, hcode, -, -⟩
  have heval : room_from_record ["A", "B", "C", "D"]
      = .ok { hotel_code := "A", source := "B", room_name := "C", room_code := "D" } := rfl
  rw [heval] at hr
  injection hr with h
  rw [← h] at hcode
  exact absurd hcode (by decide)

/-- C2 amended: the room reader binds the four pipe-delimited columns to the
Room fields positionally in struct declaration order — hotel_code, source,
room_name, room_code — and stores the parsed room under its composite key
generate_room_key hotel_code room_code source. -/
theorem rooms_columns_bind_declaration_order :
    ∀ a b c d : String,
      room_from_record [a, b, c, d]
        = .ok { hotel_code := a, source := b, room_name := c, room_code := d }
      ∧ rooms_line [a, b, c, d]
        = .ok (generate_room_key a d b,
               { hotel_code := a, source := b, room_name := c, room_code := d }) :=
  fun _ _ _ _ => ⟨rfl, rfl⟩

/-- C8: importing a sequence into a store reports no error, and a find after
the import returns the value of the last pair of the imported sequence
bearing the key, falling back to the previous contents of the store only
when the sequence never mentions the key — later entries silently replace
earlier ones and pre-existing entries under the same key. -/
theorem import_last_write_wins {K I : Type} [DecidableEq K] (s : DataSource K I)
    (items : List (K × I)) (k : K) :
    (DataSource.import_from s (.ok items)).2 = none
    ∧ DataSource.find (DataSource.import_from s (.ok items)).1 k
        = (last_assoc items k).orElse (fun _ => DataSource.find s k) :=
  ⟨rfl, store_find_extend s.items items k⟩

/-- C9: when the reader fails, import_from returns the error and the store
is exactly what it was before the call; and each reader fails as a whole as
soon as any line or record of its file is malformed, so no pair from a
failing file is ever produced for insertion. -/
theorem import_error_leaves_store :
    (∀ (K I : Type) [DecidableEq K], ∀ (s : DataSource K I) (e : String),
       DataSource.import_from s (.error e) = (s, some e))
    ∧ (∀ records : List (List String),
         (∃ rec ∈ records, ∃ e, room_from_record rec = .error e) →
         ∃ e, rooms_reader records = .error e)
    ∧ (∀ lines : List (String × Option Json),
         (∃ p ∈ lines, ∃ e, hotels_line p.1 p.2 = .error e) →
         ∃ e, hotels_reader lines = .error e) := by
  refine ⟨fun K I _ s e => rfl, fun records hbad => ?_, fun lines hbad => ?_⟩
  · apply collect_results_error_of_mem rooms_line records
    rcases hbad with ⟨rec, hmem, e, he⟩
    exact ⟨rec, hmem, "Encountered unparsable entity during parsing rooms data.",
           by simp [rooms_line, he]⟩
  · exact collect_results_error_of_mem (fun p => hotels_line p.1 p.2) lines hbad

/-- C9 witness: a failing import leaves a concrete one-entry store intact,
and each reader rejects a file containing one malformed entry. -/
theorem import_error_leaves_store_witness :
    DataSource.import_from (⟨[("K", 7)]⟩ : DataSource String Nat) (.error "boom")
      = (⟨[("K", 7)]⟩, some "boom")
    ∧ (∃ e, rooms_reader [["only", "three", "columns"]] = .error e)
    ∧ (∃ e, hotels_reader [("not json", none)] = .error e) :=
  ⟨import_error_leaves_store.1 String Nat ⟨[("K", 7)]⟩ "boom",
   import_error_leaves_store.2.1 [["only", "three", "columns"]]
     ⟨["only", "three", "columns"], by simp, "wrong number of fields", rfl⟩,
   import_error_leaves_store.2.2 [("not json", none)]
     ⟨("not json", none), by simp, hotels_ctx "not json", rfl⟩⟩

/-- C10: the composite room key is not injective — the two distinct triples
("A", "B-C", "D") and ("A-B", "C", "D") derive the same key "A-B-C-D" — so
two rooms with different fields share a key and the second import silently
overwrites the first, and a lookup under that key returns a room whose
individual fields differ from the first triple's. -/
theorem room_key_collision :
    generate_room_key "A" "B-C" "D" = "A-B-C-D"
    ∧ generate_room_key "A-B" "C" "D" = "A-B-C-D"
    ∧ (("A", "B-C", "D") : String × String × String) ≠ ("A-B", "C", "D")
    ∧ Room.key ⟨"A", "D", "room one", "B-C"⟩ = Room.key ⟨"A-B", "D", "room two", "C"⟩
    ∧ (⟨"A", "D", "room one", "B-C"⟩ : Room) ≠ ⟨"A-B", "D", "room two", "C"⟩
    ∧ store_find
        (store_extend []
          [(Room.key ⟨"A", "D", "room one", "B-C"⟩, (⟨"A", "D", "room one", "B-C"⟩ : Room)),
           (Room.key ⟨"A-B", "D", "room two", "C"⟩, (⟨"A-B", "D", "room two", "C"⟩ : Room))])
        (Room.key ⟨"A", "D", "room one", "B-C"⟩)
      = some ⟨"A-B", "D", "room two", "C"⟩ := by
  decide

/-- C3 counterexample: for an input row with adults = 200 and children = 100
(sum 300, above the u8 range) whose lookups succeed, the integrator emits an
Ok output whose pax is the wrapped value 44 — the overflow is not surfaced
as an error condition. -/
theorem pax_overflow_counterexample :
    integrate_row rooms0 hotels0 input2 = .ok out2
    ∧ out2.pax = 44
    ∧ input2.adults + input2.children = 300
    ∧ ∀ e, integrate_row rooms0 hotels0 input2 ≠ .error e := by
  refine ⟨rfl, rfl, rfl, fun e he => ?_⟩
  exact Except.noConfusion ((rfl : integrate_row rooms0 hotels0 input2 = .ok out2).symm.trans he)

/-- C3 amended: for every input row whose lookups succeed the integrator
sets pax to (adults + children) mod 256 — the wrapping u8 sum of the release
build (a debug build aborts on overflow instead) — and never yields an error
item for the row; a sum above 255 silently wraps. -/
theorem pax_wraps_modulo_256 (rooms : DataSource String Room)
    (hotels : DataSource String Hotel) (item : Input) (out : Output)
    (h : integrate_row rooms hotels item = .ok out) :
    out.pax = (item.adults + item.children) % 256
    ∧ ∀ e, integrate_row rooms hotels item ≠ .error e := by
  obtain ⟨room, hotel, hr, hh, hout⟩ := integrate_row_ok_inv rooms hotels item out h
  exact ⟨by rw [hout], fun e he => Except.noConfusion (h.symm.trans he)⟩

/-- C3 amended witness: the amended theorem applied to the concrete
overflowing row, whose output pax is 300 mod 256 = 44. -/
theorem pax_wraps_modulo_256_witness :
    out2.pax = (input2.adults + input2.children) % 256
    ∧ ∀ e, integrate_row rooms0 hotels0 input2 ≠ .error e :=
  pax_wraps_modulo_256 rooms0 hotels0 input2 out2 rfl

/-- C4 counterexample: for an input row with adults = 0 and children = 0
whose lookups succeed, the integrator performs the division anyway and emits
an Ok output whose price is the non-finite result (modelled none), not an
error item. -/
theorem zero_pax_counterexample :
    integrate_row rooms0 hotels0 input1 = .ok out1
    ∧ out1.price = none
    ∧ ∀ e, integrate_row rooms0 hotels0 input1 ≠ .error e := by
  refine ⟨rfl, rfl, fun e he => ?_⟩
  exact Except.noConfusion ((rfl : integrate_row rooms0 hotels0 input1 = .ok out1).symm.trans he)

/-- C4 amended: when both lookups succeed and adults = children = 0 the
division by the zero pax is not handled: the row is emitted as an Ok output
whose price is the IEEE non-finite quotient (modelled none), never as an
error item. -/
theorem zero_pax_emits_ok_nonfinite (rooms : DataSource String Room)
    (hotels : DataSource String Hotel) (item : Input) (room : Room) (hotel : Hotel)
    (hr : rooms.find (generate_room_key item.hotel_code item.room_code item.source) = some room)
    (hh : hotels.find item.hotel_code = some hotel)
    (ha : item.adults = 0) (hc : item.children = 0) :
    ∃ out, integrate_row rooms hotels item = .ok out ∧ out.price = none := by
  simp only [integrate_row, hr, hh]
  exact ⟨_, rfl, by simp [ha, hc, f64_div]⟩

/-- C4 amended witness: the amended theorem applied to the concrete
zero-pax row against the one-room, one-hotel fixture stores. -/
theorem zero_pax_emits_ok_nonfinite_witness :
    ∃ out, integrate_row rooms0 hotels0 input1 = .ok out ∧ out.price = none :=
  zero_pax_emits_ok_nonfinite rooms0 hotels0 input1 room0 hotel0 rfl rfl rfl rfl

/-- C5 counterexample: a line that is a JSON object with all six Hotel
fields plus an extra unknown field parses successfully (serde ignores
unknown fields by default), so the import succeeds — refuting the claim that
a line with an extra field fails the import. -/
theorem extra_field_accepted_counterexample :
    hotel_from_json hotel_with_extra_field
      = .ok ⟨"BER00002", "BER", "Crowne Plaza Berlin City Centre", 4, "DE", "Berlin"⟩
    ∧ hotels_reader [("line with extra field", some hotel_with_extra_field)]
      = .ok [("BER00002",
              ⟨"BER00002", "BER", "Crowne Plaza Berlin City Centre", 4, "DE", "Berlin"⟩)] :=
  ⟨rfl, rfl⟩

/-- C5 amended: a hotels line that is not valid JSON, or whose object lacks
a declared field (or types one wrongly), fails the whole import with an
error identifying that line's raw text; a line that is a JSON object with
exactly the declared fields, well typed, parses successfully to the Hotel
(extra unknown fields are ignored rather than rejected, per serde's
default). -/
theorem hotel_line_parsing :
    (∀ (raw : String) (j : Json) (msg : String) (rest : List (String × Option Json)),
       hotel_from_json j = .error msg →
       hotels_reader ((raw, some j) :: rest) = .error (hotels_ctx raw))
    ∧ (∀ (raw : String) (rest : List (String × Option Json)),
         hotels_reader ((raw, none) :: rest) = .error (hotels_ctx raw))
    ∧ (∀ h : Hotel, hotel_from_json (hotel_json_exact h) = .ok h)
    ∧ (∀ id cc ctr city : String,
         hotel_from_json (.obj [("id", .str id), ("city_code", .str cc),
                                ("country_code", .str ctr), ("city", .str city)])
           = .error "missing field") := by
  refine ⟨fun raw j msg rest herr => ?_, fun raw rest => rfl, fun h => rfl,
          fun id cc ctr city => rfl⟩
  simp [hotels_reader, collect_results, hotels_line, herr]

/-- C5 amended witness: the repo's own malformed test line (missing name and
category) fails the import with its raw text in the error, and a well-formed
line for the fixture hotel parses. -/
theorem hotel_line_parsing_witness :
    hotels_reader [("bad line", some hotel_missing_fields_json)]
      = .error (hotels_ctx "bad line")
    ∧ hotel_from_json (hotel_json_exact hotel0) = .ok hotel0 :=
  ⟨hotel_line_parsing.1 "bad line" hotel_missing_fields_json "missing field" [] rfl,
   hotel_line_parsing.2.2.1 hotel0⟩

/-- C6 counterexample: an input row that matches the stored room and hotel
but has adults = children = 0 is emitted with the non-finite price of the
zero division, which serializes as "inf" — not as the per-stay price divided
by pax with exactly two decimal digits. -/
theorem zero_pax_price_not_two_decimals :
    integrate_row rooms0 hotels0 input1 = .ok out1
    ∧ serialize_float out1.price = "inf"
    ∧ ¬ two_decimals (serialize_float out1.price) := by
  refine ⟨rfl, rfl, ?_⟩
  have h : serialize_float out1.price = "inf" := rfl
  rw [h]
  exact not_two_decimals_inf

/-- C6 amended: for every matching input row whose pax sum lies in 1..255
and whose price is non-negative, the output has checkout = checkin + 1 day,
pax = adults + children, and price = price / pax, which serializes with
exactly two decimal digits; in particular the spec's end-to-end example row
(checkin 20190730, adults 2, children 1, price 90.00) yields checkin
2019-07-30, checkout 2019-07-31, pax 3 and price "30.00", and 8.5
serializes as "8.50". -/
theorem output_fields :
    (∀ (rooms : DataSource String Room) (hotels : DataSource String Hotel)
       (item : Input) (out : Output),
       integrate_row rooms hotels item = .ok out →
       1 ≤ item.adults + item.children →
       item.adults + item.children ≤ 255 →
       0 ≤ item.price →
         out.checkout = next_day item.checkin
         ∧ out.pax = item.adults + item.children
         ∧ out.price = some (item.price / ((item.adults + item.children : Nat) : Rat))
         ∧ two_decimals (serialize_float out.price))
    ∧ (integrate_row rooms0 hotels0 input0 = .ok out0
       ∧ date_serialize out0.checkin = "2019-07-30"
       ∧ date_serialize out0.checkout = "2019-07-31"
       ∧ out0.pax = 3
       ∧ serialize_float out0.price = "30.00")
    ∧ serialize_float (some ((17 : Rat) / 2)) = "8.50" := by
  refine ⟨fun rooms hotels item out h h1 h255 hp => ?_, ⟨rfl, rfl, rfl, rfl, ?_⟩, ?_⟩
  · obtain ⟨room, hotel, hr, hh, hout⟩ := integrate_row_ok_inv rooms hotels item out h
    have hmod : (item.adults + item.children) % 256 = item.adults + item.children :=
      Nat.mod_eq_of_lt (lt_of_le_of_lt h255 (by norm_num))
    have hne : ¬ (item.adults + item.children = 0) := by omega
    have hprice : out.price = some (item.price / ((item.adults + item.children : Nat) : Rat)) := by
      rw [hout]
      simp only [f64_div, hmod]
      rw [if_neg hne]
    refine ⟨by rw [hout], by rw [hout]; exact hmod, hprice, ?_⟩
    rw [hprice]
    apply serialize_float_nonneg_two_decimals
    exact div_nonneg hp (by positivity)
  · have h30 : out0.price = some ((90 : Rat) / 3) := rfl
    rw [h30, serialize_float_cents ((90 : Rat) / 3) 3000 (by norm_num) (by norm_num)]
    decide
  · rw [serialize_float_cents ((17 : Rat) / 2) 850 (by norm_num) (by norm_num)]
    decide

/-- C6 amended witness: the general part of the amended theorem applied to
the concrete end-to-end example row. -/
theorem output_fields_witness :
    out0.checkout = next_day input0.checkin
    ∧ out0.pax = input0.adults + input0.children
    ∧ out0.price = some (input0.price / ((input0.adults + input0.children : Nat) : Rat))
    ∧ two_decimals (serialize_float out0.price) :=
  output_fields.1 rooms0 hotels0 input0 out0 rfl (by norm_num [input0])
    (by norm_num [input0]) (by norm_num [input0])

/-- C7 counterexample: the program's serializer and deserializer use two
different formats, so composing them does not reproduce the date: the
serialized form "2020-12-12" is rejected by the compact-format deserializer
(which accepts the compact spelling "20201212" of the same date). -/
theorem date_formats_do_not_compose :
    date_serialize ⟨2020, 12, 12⟩ = "2020-12-12"
    ∧ date_deserialize (date_serialize ⟨2020, 12, 12⟩) = none
    ∧ date_deserialize "20201212" = some ⟨2020, 12, 12⟩ := by
  decide

theorem pad4_facts : ∀ y ∈ [1, 10, 100, 1000, 2020],
    (pad4 y).length = 4 ∧ digits_to_nat (pad4 y) = y ∧ (pad4 y).all is_digit_char = true := by
  decide

theorem pad2_facts : ∀ n < 100,
    (pad2 n).length = 2 ∧ digits_to_nat (pad2 n) = n ∧ (pad2 n).all is_digit_char = true := by
  decide

theorem date_deserialize_append (ys ms ds : List Char) (y m d : Nat)
    (hy : ys.length = 4) (hm : ms.length = 2) (hd : ds.length = 2)
    (hya : ys.all is_digit_char = true) (hma : ms.all is_digit_char = true)
    (hda : ds.all is_digit_char = true)
    (hyv : digits_to_nat ys = y) (hmv : digits_to_nat ms = m) (hdv : digits_to_nat ds = d)
    (hval : date_valid ⟨y, m, d⟩ = true) :
    date_deserialize (String.mk (ys ++ (ms ++ ds))) = some ⟨y, m, d⟩ := by
  have hlist : (String.mk (ys ++ (ms ++ ds))).toList = ys ++ (ms ++ ds) := rfl
  have htake4 : (ys ++ (ms ++ ds)).take 4 = ys := by
    rw [← hy]; exact List.take_left ys (ms ++ ds)
  have hdrop4 : (ys ++ (ms ++ ds)).drop 4 = ms ++ ds := by
    rw [← hy]; exact List.drop_left ys (ms ++ ds)
  have htake2 : (ms ++ ds).take 2 = ms := by
    rw [← hm]; exact List.take_left ms ds
  have hdrop6 : (ys ++ (ms ++ ds)).drop 6 = ds := by
    have h62 : ((ys ++ (ms ++ ds)).drop 4).drop 2 = (ys ++ (ms ++ ds)).drop 6 := by
      rw [List.drop_drop]
    rw [← h62, hdrop4, ← hm]
    exact List.drop_left ms ds
  have hlen : (ys ++ (ms ++ ds)).length = 8 := by
    simp [hy, hm, hd]
  have hall : (ys ++ (ms ++ ds)).all is_digit_char = true := by
    simp [List.all_append] at hya hma hda ⊢
    exact ⟨hya, hma, hda⟩
  simp only [date_deserialize, hlist, hlen, hall, htake4, hdrop4, htake2, hdrop6,
             hyv, hmv, hdv, hval]
  simp [hval]

theorem spec_hyphen_parse_append (ys ms ds : List Char) (y m d : Nat)
    (hy : ys.length = 4) (hm : ms.length = 2) (hd : ds.length = 2)
    (hya : ys.all is_digit_char = true) (hma : ms.all is_digit_char = true)
    (hda : ds.all is_digit_char = true)
    (hyv : digits_to_nat ys = y) (hmv : digits_to_nat ms = m) (hdv : digits_to_nat ds = d)
    (hval : date_valid ⟨y, m, d⟩ = true) :
    spec_hyphen_parse (String.mk (ys ++ '-' :: (ms ++ '-' :: ds))) = some ⟨y, m, d⟩ := by
  obtain ⟨a, b, c, e, rfl⟩ : ∃ a b c e, ys = [a, b, c, e] := by
    rcases ys with _ | ⟨a, _ | ⟨b, _ | ⟨c, _ | ⟨e, _ | ⟨f, tl⟩⟩⟩⟩⟩ <;> simp at hy
    exact ⟨a, b, c, e, rfl⟩
  obtain ⟨f, g, rfl⟩ : ∃ f g, ms = [f, g] := by
    rcases ms with _ | ⟨f, _ | ⟨g, _ | ⟨h1, tl⟩⟩⟩ <;> simp at hm
    exact ⟨f, g, rfl⟩
  obtain ⟨h1, h2, rfl⟩ : ∃ h1 h2, ds = [h1, h2] := by
    rcases ds with _ | ⟨h1, _ | ⟨h2, _ | ⟨h3, tl⟩⟩⟩ <;> simp at hd
    exact ⟨h1, h2, rfl⟩
  simp only [List.all_cons, List.all_nil, Bool.and_eq_true, Bool.and_true] at hya hma hda
  simp only [List.cons_append, List.nil_append]
  have hlist : (String.mk
      (a :: b :: c :: e :: '-' :: f :: g :: '-' :: h1 :: h2 :: ([] : List Char))).toList
      = a :: b :: c :: e :: '-' :: f :: g :: '-' :: h1 :: h2 :: [] := rfl
  simp only [spec_hyphen_parse, hlist]
  simp [hya.1, hya.2.1, hya.2.2.1, hya.2.2.2, hma.1, hma.2, hda.1, hda.2,
        hyv, hmv, hdv, hval]

set_option maxRecDepth 10000 in
/-- C7 amended: each format round-trips with its own counterpart for every
valid date of the years 1, 10, 100, 1000 and 2020, zero-padded to 4-digit
years: deserializing the compact zero-padded rendering of a date yields the
date back, and parsing the program's hyphenated serialization as
YYYY-MM-DD yields the date back — but the serializer's output format is not
the deserializer's input format, so the two program functions do not invert
each other directly. -/
theorem date_round_trip_per_format :
    ∀ y ∈ [1, 10, 100, 1000, 2020], ∀ m < 13, ∀ d < 32,
      date_valid ⟨y, m, d⟩ = true →
        (date_deserialize (spec_compact_render ⟨y, m, d⟩) = some ⟨y, m, d⟩
        ∧ spec_hyphen_parse (date_serialize ⟨y, m, d⟩) = some ⟨y, m, d⟩) := by
  intro y hy m hm d hd hval
  obtain ⟨hy4, hyv, hya⟩ := pad4_facts y hy
  obtain ⟨hm2, hmv, hma⟩ := pad2_facts m (by omega)
  obtain ⟨hd2, hdv, hda⟩ := pad2_facts d (by omega)
  exact ⟨date_deserialize_append (pad4 y) (pad2 m) (pad2 d) y m d
           hy4 hm2 hd2 hya hma hda hyv hmv hdv hval,
         spec_hyphen_parse_append (pad4 y) (pad2 m) (pad2 d) y m d
           hy4 hm2 hd2 hya hma hda hyv hmv hdv hval⟩

/-- C7 amended witness: the round trip at the concrete leap day 2020-02-29. -/
theorem date_round_trip_per_format_witness :
    date_deserialize (spec_compact_render ⟨2020, 2, 29⟩) = some ⟨2020, 2, 29⟩
    ∧ spec_hyphen_parse (date_serialize ⟨2020, 2, 29⟩) = some ⟨2020, 2, 29⟩ :=
  date_round_trip_per_format 2020 (by decide) 2 (by decide) 29 (by decide) (by decide)

end Axiv
